import Mathlib

/-
Verification of the secret-lifecycle core of the amantra client.

The embedding translates the TypeScript sources directly:
  * `src/utils/storage.ts`       : the TTL cache over the durable key-value store
  * `src/hooks/use-encryption-key.ts` : the secret key cache (mirror + TTL slot)
  * `src/unnamed/part_000` (AuthProvider) : session store (hydrate, completeLogin,
    signOut, refreshUser, setEncryptionKeyConfigured)
  * `src/services/api.ts`        : unauthorized broadcaster and response interceptor
  * `src/app/(tabs)/passwords.tsx` : reveal timers (handleReveal)
  * `src/unnamed/part_003` (NotesScreen) : decryptNote

The durable store (AsyncStorage) is modelled as an association list from string
keys to raw cells.  A raw cell is either a value that deserializes (`valid`,
carrying the parsed payload) or a byte string that fails to parse (`corrupt`).
Time is a natural-number millisecond clock passed explicitly (Date.now()).
Promise rejection of an operation is modelled by `Except`/explicit outcome
values.
-/

namespace AmantraVault

/-- Raw cell held by the durable store for TTL-wrapped payloads: either a
payload that parses into `{ value, expiresAt? }` or an unparseable string. -/
inductive RawEntry (V : Type) where
  | valid (value : V) (expiresAt : Option Nat)
  | corrupt
deriving DecidableEq

/-- The durable key-value store, an association list keyed by strings.
AsyncStorage serializes access per key; only the mapping matters here. -/
abbrev DurableStore (V : Type) := List (String × RawEntry V)

/-- Lookup in an association list (first binding wins, as for a JS object). -/
def alookup {α : Type} (l : List (String × α)) (key : String) : Option α :=
  match l with
  | [] => none
  | (k, v) :: rest => if k = key then some v else alookup rest key

/-- Raw read of the durable store (AsyncStorage.getItem). -/
def storeGet {V : Type} (st : DurableStore V) (key : String) : Option (RawEntry V) :=
  alookup st key

/-- Raw delete from the durable store (AsyncStorage.removeItem). -/
def storeRemove {V : Type} (st : DurableStore V) (key : String) : DurableStore V :=
  st.filter (fun p => p.1 ≠ key)

/-- Raw write to the durable store (AsyncStorage.setItem): overwrites any
prior binding for the key. -/
def storeSet {V : Type} (st : DurableStore V) (key : String) (e : RawEntry V) :
    DurableStore V :=
  (key, e) :: storeRemove st key

/-- Embeds `setItemWithTTL` of src/utils/storage.ts.  The JS guard
`ttlMs ? Date.now() + ttlMs : undefined` treats an absent argument and a zero
argument alike (both falsy), so `expiresAt` is set only for a nonzero ttl. -/
def setItemWithTTL {V : Type} (st : DurableStore V) (key : String) (value : V)
    (now : Nat) (ttlMs : Option Nat) : DurableStore V :=
  let expiresAt : Option Nat :=
    match ttlMs with
    | some t => if t = 0 then none else some (now + t)
    | none => none
  storeSet st key (RawEntry.valid value expiresAt)

/-- Embeds `getItemWithTTL` of src/utils/storage.ts, returning the value
handed to the caller together with the store after side effects.  The JS
expiry test is `parsed.expiresAt && parsed.expiresAt < Date.now()`: the entry
is purged only when `expiresAt` is truthy (nonzero) and strictly below the
clock.  A payload that fails to parse is removed and reported absent. -/
def getItemWithTTL {V : Type} (st : DurableStore V) (key : String) (now : Nat) :
    Option V × DurableStore V :=
  match storeGet st key with
  | none => (none, st)
  | some RawEntry.corrupt => (none, storeRemove st key)
  | some (RawEntry.valid v e) =>
    match e with
    | some t => if t ≠ 0 ∧ t < now then (none, storeRemove st key) else (some v, st)
    | none => (some v, st)

/-- Embeds `removeItem` of src/utils/storage.ts. -/
def removeItem {V : Type} (st : DurableStore V) (key : String) : DurableStore V :=
  storeRemove st key

theorem alookup_filter_ne_self {α : Type} (l : List (String × α)) (key : String) :
    alookup (l.filter (fun p => p.1 ≠ key)) key = none := by
  induction l with
  | nil => rfl
  | cons hd tl ih =>
    by_cases h : hd.1 = key
    · simpa [List.filter, h] using ih
    · simpa [List.filter, h, alookup] using ih

theorem alookup_filter_ne_other {α : Type} (l : List (String × α)) (k key : String)
    (h : k ≠ key) :
    alookup (l.filter (fun p => p.1 ≠ k)) key = alookup l key := by
  induction l with
  | nil => rfl
  | cons hd tl ih =>
    simp only [decide_not] at ih
    by_cases hk : hd.1 = k
    · simp [List.filter, hk, alookup, h, ih, decide_not]
    · by_cases hkey : hd.1 = key
      · simp [List.filter, hk, alookup, hkey, Ne.symm h, decide_not]
      · simp [List.filter, hk, alookup, hkey, ih, decide_not]

theorem storeGet_storeSet_self {V : Type} (st : DurableStore V) (key : String)
    (e : RawEntry V) : storeGet (storeSet st key e) key = some e := by
  simp [storeGet, storeSet, alookup]

theorem storeGet_storeRemove_self {V : Type} (st : DurableStore V) (key : String) :
    storeGet (storeRemove st key) key = none :=
  alookup_filter_ne_self st key

/-- C1 (counterexample): at the exact instant `now = expiresAt` the code still
returns the stored value and leaves the raw entry in place, because the JS
expiry test `parsed.expiresAt < Date.now()` is strict.  Key "k" is stored at
time 0 with ttl 100 (so expiresAt = 100) and read at time 100. -/
theorem ttl_get_at_exact_expiry_returns_value :
    (getItemWithTTL (setItemWithTTL ([] : DurableStore String) "k" "v" 0 (some 100)) "k" 100).1
      = some "v" ∧
    storeGet (getItemWithTTL (setItemWithTTL ([] : DurableStore String) "k" "v" 0 (some 100)) "k" 100).2 "k"
      = some (RawEntry.valid "v" (some 100)) := by
  constructor <;> rfl

/-- C1 (amended): for every key stored with a nonzero TTL, `get` called
strictly after `expiresAt = now0 + ttl` returns absent and removes the entry
from the Durable Store (a raw read then finds nothing); at the exact instant
`now = expiresAt` the value is still returned. -/
theorem ttl_get_absent_strictly_after_expiry (st : DurableStore String)
    (key v : String) (now0 ttl t : Nat) (httl : ttl ≠ 0) :
    (now0 + ttl < t →
      (getItemWithTTL (setItemWithTTL st key v now0 (some ttl)) key t).1 = none ∧
      storeGet (getItemWithTTL (setItemWithTTL st key v now0 (some ttl)) key t).2 key = none) ∧
    (getItemWithTTL (setItemWithTTL st key v now0 (some ttl)) key (now0 + ttl)).1 = some v := by
  have hset : storeGet (setItemWithTTL st key v now0 (some ttl)) key
      = some (RawEntry.valid v (some (now0 + ttl))) := by
    simp [setItemWithTTL, httl, storeGet_storeSet_self]
  constructor
  · intro ht
    have hcond : (now0 + ttl ≠ 0 ∧ now0 + ttl < t) := ⟨by omega, ht⟩
    simp [getItemWithTTL, hset, hcond, storeGet_storeRemove_self]
  · have hcond : ¬(now0 + ttl ≠ 0 ∧ now0 + ttl < (now0 + ttl)) := by omega
    simp [getItemWithTTL, hset, hcond]

/-- C1 (witness): the amended theorem applied at key "k", value "v", write at
time 0 with ttl 100, read at time 101. -/
theorem ttl_get_absent_strictly_after_expiry_witness :
    (getItemWithTTL (setItemWithTTL ([] : DurableStore String) "k" "v" 0 (some 100)) "k" 101).1 = none ∧
    storeGet (getItemWithTTL (setItemWithTTL ([] : DurableStore String) "k" "v" 0 (some 100)) "k" 101).2 "k" = none :=
  (ttl_get_absent_strictly_after_expiry [] "k" "v" 0 100 101 (by decide)).1 (by decide)

/-- C10: storing with a TTL argument of 0 milliseconds writes an entry with no
`expiresAt` (the JS guard `ttlMs ? ... : undefined` treats 0 as falsy), so the
entry never expires through the TTL mechanism: a read at any later time
returns the value and leaves the store unchanged. -/
theorem ttl_zero_means_never_expires (st : DurableStore String) (key v : String)
    (now t : Nat) :
    storeGet (setItemWithTTL st key v now (some 0)) key = some (RawEntry.valid v none) ∧
    (getItemWithTTL (setItemWithTTL st key v now (some 0)) key t).1 = some v ∧
    (getItemWithTTL (setItemWithTTL st key v now (some 0)) key t).2
      = setItemWithTTL st key v now (some 0) := by
  have hset : storeGet (setItemWithTTL st key v now (some 0)) key
      = some (RawEntry.valid v none) := by
    simp [setItemWithTTL, storeGet_storeSet_self]
  refine ⟨hset, ?_, ?_⟩ <;> simp [getItemWithTTL, hset]

/-- User profile shape (`AuthUser` in the AuthProvider source).  Optional
JS fields that may also be null are modelled as `Option String`. -/
structure AuthUser where
  id : String
  name : String
  email : String
  avatarUrl : Option String
  dateOfBirth : Option String
  secretAnswer : Option String
deriving DecidableEq

/-- Persisted user cell: the serialized profile under `securevault:user`
either parses back into a profile or is an unparseable string. -/
inductive UserCell where
  | valid (u : AuthUser)
  | corrupt
deriving DecidableEq

/-- The three AsyncStorage cells owned by the session store
(`securevault:token`, `securevault:user`, `securevault:key-configured`).
These keys are disjoint from the key cache's `securevault:ekey` cell, so they
are modelled as separate typed cells. -/
structure SessionDS where
  tokenCell : Option String
  userCell : Option UserCell
  keyFlagCell : Option String
deriving DecidableEq

/-- In-memory React state of the AuthProvider. -/
structure AuthMem where
  token : Option String
  user : Option AuthUser
  isHydrated : Bool
  encryptionKeyConfigured : Bool
deriving DecidableEq

/-- JS truthiness of an optional string (`if (value)`): null, undefined and
the empty string are falsy. -/
def strTruthy : Option String → Bool
  | none => false
  | some s => if s = "" then false else true

/-- Embeds `setAuthToken` of src/services/api.ts, returning the new value of
the default Authorization header: set to a bearer header for a truthy token,
deleted otherwise. -/
def setAuthToken (token : Option String) : Option String :=
  match token with
  | some t => if t = "" then none else some ("Bearer " ++ t)
  | none => none

/-- Full session store state: AuthProvider memory, its persisted cells, and
the transport's Authorization header. -/
structure SessionState where
  mem : AuthMem
  ds : SessionDS
  authHeader : Option String
deriving DecidableEq

/-- Embeds the `hydrate` closure of the AuthProvider effect: batched read of
the three cells; a truthy token is adopted and propagated to the header; a
parseable user is adopted while an unparseable one is removed from the store;
a truthy flag cell sets the key-configured bit to whether it equals "true";
finally the hydrated bit is set. -/
def hydrate (s : SessionState) : SessionState :=
  let s1 :=
    match s.ds.tokenCell with
    | some t =>
      if t = "" then s
      else { s with mem := { s.mem with token := some t }, authHeader := setAuthToken (some t) }
    | none => s
  let s2 :=
    match s1.ds.userCell with
    | some (UserCell.valid u) => { s1 with mem := { s1.mem with user := some u } }
    | some UserCell.corrupt => { s1 with ds := { s1.ds with userCell := none } }
    | none => s1
  let s3 :=
    match s2.ds.keyFlagCell with
    | some f =>
      if f = "" then s2
      else { s2 with mem := { s2.mem with encryptionKeyConfigured := decide (f = "true") } }
    | none => s2
  { s3 with mem := { s3.mem with isHydrated := true } }

/-- Embeds `completeLogin`: sets the in-memory fields, propagates the token to
the Authorization header, and persists all three cells in one batch. -/
def completeLogin (s : SessionState) (token : String) (u : AuthUser)
    (keyConfigured : Bool) : SessionState :=
  { mem := { token := some token, user := some u, isHydrated := s.mem.isHydrated,
             encryptionKeyConfigured := keyConfigured },
    ds := { tokenCell := some token, userCell := some (UserCell.valid u),
            keyFlagCell := some (if keyConfigured then "true" else "false") },
    authHeader := setAuthToken (some token) }

/-- Embeds `signOut`: clears the in-memory fields, deletes the Authorization
header, and removes the three persisted session cells.  The source function
contains no operation on the secret key cache. -/
def signOut (s : SessionState) : SessionState :=
  { mem := { token := none, user := none, isHydrated := s.mem.isHydrated,
             encryptionKeyConfigured := false },
    ds := { tokenCell := none, userCell := none, keyFlagCell := none },
    authHeader := setAuthToken none }

/-- Embeds `refreshUser`.  The fetch outcome of `api.get` is passed as an
`Except` argument; the returned boolean records whether the network call was
issued.  A falsy token short-circuits before any request; on a successful
fetch the profile overwrites memory and the persisted user cell; a rejected
fetch propagates without running the assignments. -/
def refreshUser (s : SessionState) (fetched : Except Nat AuthUser) :
    SessionState × Bool :=
  match s.mem.token with
  | none => (s, false)
  | some t =>
    if t = "" then (s, false)
    else
      match fetched with
      | Except.ok u =>
        ({ s with mem := { s.mem with user := some u },
                  ds := { s.ds with userCell := some (UserCell.valid u) } }, true)
      | Except.error _ => (s, true)

/-- Embeds `setEncryptionKeyConfigured`: updates the in-memory flag and the
persisted flag cell, touching nothing else. -/
def setEncryptionKeyConfigured (s : SessionState) (value : Bool) : SessionState :=
  { s with mem := { s.mem with encryptionKeyConfigured := value },
           ds := { s.ds with keyFlagCell := some (if value then "true" else "false") } }

/-- Storage key of the secret key cache slot (use-encryption-key.ts). -/
def EKEY_STORAGE_KEY : String := "securevault:ekey"

/-- The fixed TTL of the secret key cache: 5 minutes in milliseconds. -/
def TTL_MS : Nat := 5 * 60 * 1000

/-- Modelled from the spec: the reversible key encoding `encodeKey` of
`@/utils/crypto`, whose source file is not present under src/.  The spec
describes it as a reversible text encoding; it is modelled as an injective
tag-and-copy encoding.  No settled claim depends on its concrete shape. -/
def encodeKey (s : String) : String := "enc:" ++ s

/-- Modelled from the spec: the matching decoder `decodeKey` of
`@/utils/crypto`, the left inverse of `encodeKey`. -/
def decodeKey (s : String) : String := s.drop 4

/-- State of the `useEncryptionKey` hook: the in-memory mirror (`rawKey`), the
hydration bit, and the durable store holding the `securevault:ekey` slot. -/
structure KeyHookState where
  rawKey : Option String
  isHydrated : Bool
  store : DurableStore String
deriving DecidableEq

/-- Embeds `setKey`: encodes the raw value, updates the in-memory mirror, and
(when `persist` holds, its default) writes the slot with the fixed TTL. -/
def hookSetKey (s : KeyHookState) (value : String) (persist : Bool) (now : Nat) :
    KeyHookState :=
  { s with rawKey := some (encodeKey value),
           store := if persist then
               setItemWithTTL s.store EKEY_STORAGE_KEY (encodeKey value) now (some TTL_MS)
             else s.store }

/-- Embeds `clearKey`: clears the mirror and removes the persisted slot. -/
def hookClearKey (s : KeyHookState) : KeyHookState :=
  { s with rawKey := none, store := removeItem s.store EKEY_STORAGE_KEY }

/-- Embeds the hook's hydration effect: one read through the TTL cache whose
result (and purge side effect) replaces the mirror, then the hydrated bit. -/
def hookHydrate (s : KeyHookState) (now : Nat) : KeyHookState :=
  let r := getItemWithTTL s.store EKEY_STORAGE_KEY now
  { rawKey := r.1, isHydrated := true, store := r.2 }

/-- The synchronous read callers get from the hook (`encodedKey`): the
in-memory mirror, with no expiry check. -/
def readEncodedKey (s : KeyHookState) : Option String := s.rawKey

/-- Result of invoking the registered unauthorized handler: normal return or a
raised error message. -/
abbrev HandlerResult := Except String Unit

/-- Embeds the notification step of src/services/api.ts: the module-level
`unauthorizedHandler` variable is either unset (`none`) or set, in which case
invoking it yields the handler's own result.  The source call
`unauthorizedHandler()` is not guarded by try/catch, so a failing handler's
error escapes. -/
def notifyUnauthorized (handler : Option HandlerResult) : HandlerResult :=
  match handler with
  | none => Except.ok ()
  | some r => r

/-- Error object seen by the response interceptor: `error.response?.status`. -/
structure ApiError where
  status : Option Nat
deriving DecidableEq

/-- What the interceptor's promise chain resolves to: rejection with the
original error, or a raise of the handler's own failure that replaces it. -/
inductive Outcome where
  | rejected (e : ApiError)
  | raised (msg : String)
deriving DecidableEq

/-- Embeds the response-error interceptor of src/services/api.ts.  Returns the
number of handler invocations and the outcome.  On a 401 with a registered
handler the handler runs once and, unguarded, a handler failure escapes the
callback, replacing the rejection with the thrown error. -/
def interceptorOnRejected (handler : Option HandlerResult) (e : ApiError) :
    Nat × Outcome :=
  if e.status = some 401 then
    match handler with
    | none => (0, Outcome.rejected e)
    | some (Except.ok _) => (1, Outcome.rejected e)
    | some (Except.error m) => (1, Outcome.raised m)
  else (0, Outcome.rejected e)

/-- In-memory state of the reveal machinery of passwords.tsx:
`revealedPasswords` (id to plaintext) and the pending auto-hide timers
(`hideTimers`, id to scheduled fire instant).  Timers removed from the list
are cancelled or already fired and can never run. -/
structure RevealState where
  revealed : List (String × String)
  timers : List (String × Nat)
deriving DecidableEq

/-- The auto-hide delay of a revealed password: 5000 ms. -/
def REVEAL_DELAY_MS : Nat := 5000

/-- Value currently observable for a record id. -/
def observable (rs : RevealState) (id : String) : Option String :=
  alookup rs.revealed id

/-- Number of pending timers for a record id. -/
def pendingCount (rs : RevealState) (id : String) : Nat :=
  (rs.timers.filter (fun p => p.1 = id)).length

/-- Embeds the success path of `handleReveal`: store the decrypted secret for
the id (object-spread overwrite), clear any existing timer for the id, and
schedule a fresh auto-hide timer. -/
def revealSuccess (rs : RevealState) (id secret : String) (now : Nat) : RevealState :=
  { revealed := (id, secret) :: rs.revealed.filter (fun p => p.1 ≠ id),
    timers := (id, now + REVEAL_DELAY_MS) :: rs.timers.filter (fun p => p.1 ≠ id) }

/-- Embeds the firing of a pending auto-hide timer for `id` scheduled at `t`:
the callback deletes the revealed entry; the timer itself is spent.  A timer
not in the pending list was cancelled and never runs. -/
def timerFire (rs : RevealState) (id : String) (t : Nat) : RevealState :=
  if (id, t) ∈ rs.timers then
    { revealed := rs.revealed.filter (fun p => p.1 ≠ id),
      timers := rs.timers.filter (fun p => ¬(p.1 = id ∧ p.2 = t)) }
  else rs

/-- Embeds the unmount cleanup effect of passwords.tsx: every pending timer is
cleared. -/
def revealCleanup (rs : RevealState) : RevealState :=
  { rs with timers := [] }

/-- Events that can touch the reveal state after a point in time. -/
inductive RevealOp where
  | revealOk (id secret : String) (now : Nat)
  | fire (id : String) (t : Nat)
  | cleanup
deriving DecidableEq

/-- One step of the reveal machinery. -/
def revealStep (rs : RevealState) (op : RevealOp) : RevealState :=
  match op with
  | RevealOp.revealOk id secret now => revealSuccess rs id secret now
  | RevealOp.fire id t => timerFire rs id t
  | RevealOp.cleanup => revealCleanup rs

/-- Run of a sequence of reveal events. -/
def runRevealOps (rs : RevealState) (ops : List RevealOp) : RevealState :=
  ops.foldl revealStep rs

/-- Outcome of a remote call returning a decoded payload. -/
inductive ApiResult (α : Type) where
  | ok (value : α)
  | err (e : ApiError)
deriving DecidableEq

/-- Embeds `handleReveal` of passwords.tsx over the key cache and the reveal
state.  Without a mirror key it only prompts (no request); on success the
decoded secret is revealed with a fresh timer; on failure a 401 clears the
secret key cache while any other error leaves it untouched. -/
def handleReveal (ks : KeyHookState) (rs : RevealState) (id : String)
    (resp : ApiResult String) (now : Nat) : KeyHookState × RevealState :=
  match ks.rawKey with
  | none => (ks, rs)
  | some _ =>
    match resp with
    | ApiResult.ok secret => (ks, revealSuccess rs id secret now)
    | ApiResult.err e =>
      if e.status = some 401 then (hookClearKey ks, rs) else (ks, rs)

/-- Embeds `decryptNote` of the NotesScreen source over the key cache and the
`activeContent` map.  Without a mirror key it only prompts; on success the
content is stored for the note; the catch branch only logs and toasts — it
never touches the key cache, for any error status. -/
def decryptNote (ks : KeyHookState) (active : List (String × String))
    (noteId : String) (resp : ApiResult String) :
    KeyHookState × List (String × String) :=
  match ks.rawKey with
  | none => (ks, active)
  | some _ =>
    match resp with
    | ApiResult.ok content => (ks, (noteId, content) :: active.filter (fun p => p.1 ≠ noteId))
    | ApiResult.err _ => (ks, active)

/-- Application state combining the session store and the secret key cache,
for the operations that the spec relates across components. -/
structure AppState where
  session : SessionState
  keyCache : KeyHookState
deriving DecidableEq

/-- Sign-out lifted to the full application state.  The source `signOut`
clears only the session fields, the Authorization header and the three
persisted session cells; it performs no operation on the key cache, so the
key-cache component is untouched. -/
def signOutApp (a : AppState) : AppState :=
  { a with session := signOut a.session }

/-- Concrete profile used to instantiate general theorems. -/
def sampleUser : AuthUser :=
  { id := "u1", name := "Alice", email := "alice@example.com",
    avatarUrl := none, dateOfBirth := none, secretAnswer := none }

/-- Concrete logged-in session used to instantiate general theorems. -/
def sampleSession : SessionState :=
  { mem := { token := some "abc", user := some sampleUser, isHydrated := true,
             encryptionKeyConfigured := true },
    ds := { tokenCell := some "abc", userCell := some (UserCell.valid sampleUser),
            keyFlagCell := some "true" },
    authHeader := some "Bearer abc" }

/-- Concrete unauthenticated session. -/
def emptySession : SessionState :=
  { mem := { token := none, user := none, isHydrated := false,
             encryptionKeyConfigured := false },
    ds := { tokenCell := none, userCell := none, keyFlagCell := none },
    authHeader := none }

/-- Concrete key-cache state holding a cached key in mirror and store. -/
def sampleKeyHook : KeyHookState :=
  { rawKey := some (encodeKey "1234"), isHydrated := true,
    store := [(EKEY_STORAGE_KEY, RawEntry.valid (encodeKey "1234") (some 300000))] }

/-- Concrete empty key-cache state. -/
def initialKeyHook : KeyHookState :=
  { rawKey := none, isHydrated := false, store := [] }

/-- Hydration always completes: the hydrated bit is set unconditionally in the
`finally` position. -/
theorem hydrate_isHydrated (s : SessionState) : (hydrate s).mem.isHydrated = true := rfl

/-- Hydration over a corrupt persisted user leaves the in-memory user as it
was and removes the corrupt cell. -/
theorem hydrate_corrupt_user (s : SessionState)
    (hu : s.ds.userCell = some UserCell.corrupt) :
    (hydrate s).mem.user = s.mem.user ∧ (hydrate s).ds.userCell = none := by
  unfold hydrate
  rcases htok : s.ds.tokenCell with _ | t
  · rcases hflag : s.ds.keyFlagCell with _ | f
    · simp [htok, hu, hflag]
    · by_cases hf : f = "" <;> simp [htok, hu, hflag, hf]
  · by_cases ht : t = ""
    · rcases hflag : s.ds.keyFlagCell with _ | f
      · simp [htok, hu, hflag, ht]
      · by_cases hf : f = "" <;> simp [htok, hu, hflag, ht, hf]
    · rcases hflag : s.ds.keyFlagCell with _ | f
      · simp [htok, hu, hflag, ht]
      · by_cases hf : f = "" <;> simp [htok, hu, hflag, ht, hf]

/-- C3 (counterexample): sign-out does not destroy the cached encryption key.
Starting from a logged-in state whose key cache holds an encoded key in the
in-memory mirror and in the persisted `securevault:ekey` slot, `signOut`
leaves both exactly as they were, refuting the claim that after sign-out the
CachedKey is absent from both. -/
theorem signOut_leaves_cached_key :
    (signOutApp { session := sampleSession, keyCache := sampleKeyHook }).keyCache.rawKey
      = some (encodeKey "1234") ∧
    storeGet (signOutApp { session := sampleSession, keyCache := sampleKeyHook }).keyCache.store
        EKEY_STORAGE_KEY
      = some (RawEntry.valid (encodeKey "1234") (some 300000)) := by
  constructor <;> rfl

/-- C3 (amended): `signOut` clears the session — token, user, key-configured
flag, Authorization header, and the three persisted session cells — but the
secret key cache (in-memory mirror and persisted `securevault:ekey` entry) is
left entirely unchanged; the CachedKey is destroyed only by `clearKey` or by
an expiry-detecting read. -/
theorem signOut_clears_session_only (a : AppState) :
    (signOutApp a).keyCache = a.keyCache ∧
    (signOutApp a).session.mem.token = none ∧
    (signOutApp a).session.mem.user = none ∧
    (signOutApp a).session.mem.encryptionKeyConfigured = false ∧
    (signOutApp a).session.authHeader = none ∧
    (signOutApp a).session.ds.tokenCell = none ∧
    (signOutApp a).session.ds.userCell = none ∧
    (signOutApp a).session.ds.keyFlagCell = none :=
  ⟨rfl, rfl, rfl, rfl, rfl, rfl, rfl, rfl⟩

/-- C7: session teardown is idempotent.  Running the unauthorized handler's
`signOut` a second time with no intervening re-login reproduces exactly the
state after the first run — no token, no user, flag false, persisted cells
removed — and the model functions are total, so no error is raised. -/
theorem teardown_idempotent (a : AppState) :
    signOutApp (signOutApp a) = signOutApp a ∧
    (signOutApp a).session.mem.token = none ∧
    (signOutApp a).session.mem.user = none ∧
    (signOutApp a).session.mem.encryptionKeyConfigured = false ∧
    (signOutApp a).session.ds
      = { tokenCell := none, userCell := none, keyFlagCell := none } :=
  ⟨rfl, rfl, rfl, rfl, rfl⟩

/-- C9: `refreshUser` is a no-op (no network call, no state change) when the
token is falsy; with a truthy token and a successful fetch it overwrites the
in-memory and persisted user with the fetched profile, leaving the token in
memory, the persisted token cell and the Authorization header unchanged. -/
theorem refreshUser_noop_or_overwrite (s : SessionState) (u : AuthUser)
    (fr : Except Nat AuthUser) :
    (strTruthy s.mem.token = false → refreshUser s fr = (s, false)) ∧
    (strTruthy s.mem.token = true →
      refreshUser s (Except.ok u)
        = ({ s with mem := { s.mem with user := some u },
                    ds := { s.ds with userCell := some (UserCell.valid u) } }, true) ∧
      (refreshUser s (Except.ok u)).1.mem.token = s.mem.token ∧
      (refreshUser s (Except.ok u)).1.ds.tokenCell = s.ds.tokenCell ∧
      (refreshUser s (Except.ok u)).1.authHeader = s.authHeader) := by
  constructor
  · intro h
    rcases htok : s.mem.token with _ | t
    · simp [refreshUser, htok]
    · have ht : t = "" := by
        by_contra hne
        simp [strTruthy, htok, hne] at h
      simp [refreshUser, htok, ht]
  · intro h
    rcases htok : s.mem.token with _ | t
    · simp [strTruthy, htok] at h
    · have ht : ¬t = "" := by
        intro he
        simp [strTruthy, htok, he] at h
      refine ⟨?_, ?_, ?_, ?_⟩ <;> simp [refreshUser, htok, ht]

/-- C9 (witness): the no-op branch at the unauthenticated sample state and the
frame part of the overwrite branch at the logged-in sample state. -/
theorem refreshUser_noop_or_overwrite_witness :
    refreshUser emptySession (Except.error 500) = (emptySession, false) ∧
    (refreshUser sampleSession (Except.ok sampleUser)).1.authHeader
      = sampleSession.authHeader :=
  ⟨(refreshUser_noop_or_overwrite emptySession sampleUser (Except.error 500)).1 rfl,
   ((refreshUser_noop_or_overwrite sampleSession sampleUser
       (Except.ok sampleUser)).2 rfl).2.2.2⟩

/-- C6: a persisted value that fails to deserialize is deleted by the read
path and reported absent (no error reaches the caller, the read returns the
absent value instead); and hydration over a corrupt persisted user completes
with user = none and isHydrated = true, with the corrupt cell removed. -/
theorem corrupt_persisted_treated_absent
    (st : DurableStore String) (key : String) (now : Nat)
    (hc : storeGet st key = some RawEntry.corrupt)
    (s : SessionState) (hu : s.ds.userCell = some UserCell.corrupt)
    (hmem : s.mem.user = none) :
    getItemWithTTL st key now = (none, storeRemove st key) ∧
    storeGet (getItemWithTTL st key now).2 key = none ∧
    (hydrate s).mem.user = none ∧
    (hydrate s).mem.isHydrated = true ∧
    (hydrate s).ds.userCell = none := by
  have h2 := hydrate_corrupt_user s hu
  refine ⟨?_, ?_, ?_, hydrate_isHydrated s, h2.2⟩
  · simp [getItemWithTTL, hc]
  · simp [getItemWithTTL, hc, storeGet_storeRemove_self]
  · rw [h2.1, hmem]

/-- Concrete session whose persisted user cell is corrupt. -/
def corruptSession : SessionState :=
  { mem := { token := none, user := none, isHydrated := false,
             encryptionKeyConfigured := false },
    ds := { tokenCell := some "abc", userCell := some UserCell.corrupt,
            keyFlagCell := some "true" },
    authHeader := none }

/-- C6 (witness): a store holding a corrupt payload under "k" read at time 7,
and hydration of the concrete corrupt session. -/
theorem corrupt_persisted_treated_absent_witness :
    getItemWithTTL ([("k", RawEntry.corrupt)] : DurableStore String) "k" 7
      = (none, storeRemove ([("k", RawEntry.corrupt)] : DurableStore String) "k") ∧
    (hydrate corruptSession).mem.user = none ∧
    (hydrate corruptSession).mem.isHydrated = true ∧
    (hydrate corruptSession).ds.userCell = none := by
  have h := corrupt_persisted_treated_absent
    ([("k", RawEntry.corrupt)] : DurableStore String) "k" 7 rfl corruptSession rfl rfl
  exact ⟨h.1, h.2.2.1, h.2.2.2.1, h.2.2.2.2⟩

/-- C5 (counterexample): the interceptor invokes the handler without any
try/catch, so a failing handler's error escapes the notification step and
replaces the original rejection: on a 401 with a handler that fails with
"handler failure", the outcome is a raise of the handler's error, not the
propagation of the original error — refuting "it never raises even if the
handler fails ... before the original error is propagated unchanged". -/
theorem notify_raises_on_failing_handler :
    notifyUnauthorized (some (Except.error "handler failure"))
      = Except.error "handler failure" ∧
    interceptorOnRejected (some (Except.error "handler failure")) { status := some 401 }
      = (1, Outcome.raised "handler failure") := by
  constructor <;> rfl

/-- C5 (amended): `notify` invokes the registered handler if present and is a
no-op otherwise; for every 401 response a present, non-throwing handler is
called exactly once and the original error is propagated unchanged; non-401
errors never invoke the handler; but a failing handler's error propagates out
of the notification (it is not swallowed). -/
theorem notify_and_interceptor_spec (e : ApiError) (m : String) :
    notifyUnauthorized none = Except.ok () ∧
    notifyUnauthorized (some (Except.ok ())) = Except.ok () ∧
    notifyUnauthorized (some (Except.error m)) = Except.error m ∧
    (e.status = some 401 →
      interceptorOnRejected (some (Except.ok ())) e = (1, Outcome.rejected e) ∧
      interceptorOnRejected none e = (0, Outcome.rejected e)) ∧
    (e.status ≠ some 401 →
      ∀ h : Option HandlerResult,
        interceptorOnRejected h e = (0, Outcome.rejected e)) := by
  refine ⟨rfl, rfl, rfl, ?_, ?_⟩
  · intro h401
    constructor <;> simp [interceptorOnRejected, h401]
  · intro hne h
    simp [interceptorOnRejected, hne]

/-- C5 (witness): the amended theorem applied to a 401 response with a clean
handler and to a 500 response with a present handler. -/
theorem notify_and_interceptor_spec_witness :
    interceptorOnRejected (some (Except.ok ())) { status := some 401 }
      = (1, Outcome.rejected { status := some 401 }) ∧
    interceptorOnRejected (some (Except.error "x")) { status := some 500 }
      = (0, Outcome.rejected { status := some 500 }) :=
  ⟨((notify_and_interceptor_spec { status := some 401 } "x").2.2.2.1 rfl).1,
   (notify_and_interceptor_spec { status := some 500 } "x").2.2.2.2 (by decide)
     (some (Except.error "x"))⟩

/-- C2 (counterexample): the hook's synchronous read (`encodedKey`) serves the
in-memory mirror with no expiry check and no dependence on the clock.  After
`setKey "1234"` at time 0, the mirror read returns the encoded key unchanged
at every later read time — in particular at read time 1000000000 ms, although
the only set happened more than TTL (300000 ms) before that read, refuting
"the read returns either a key that was set within the TTL window ending at
t, or absent ... for reads served from the in-memory mirror as well". -/
theorem key_mirror_serves_stale_key :
    readEncodedKey (hookSetKey initialKeyHook "1234" true 0) = some (encodeKey "1234") ∧
    0 + TTL_MS < 1000000000 := by
  constructor
  · rfl
  · decide

/-- C2 (amended): the TTL bound holds for reads that go through the TTL Cache:
hydration at time t after `setKey` at time t0 returns the key only within the
TTL window (and purges the persisted slot strictly after t0 + TTL); but the
in-memory mirror keeps serving the last set key regardless of elapsed time
within the process lifetime. -/
theorem key_cache_ttl_through_cache (s : KeyHookState) (v : String) (t0 t : Nat) :
    (t0 + TTL_MS < t →
      (hookHydrate (hookSetKey s v true t0) t).rawKey = none ∧
      storeGet (hookHydrate (hookSetKey s v true t0) t).store EKEY_STORAGE_KEY = none) ∧
    (t ≤ t0 + TTL_MS →
      (hookHydrate (hookSetKey s v true t0) t).rawKey = some (encodeKey v)) ∧
    readEncodedKey (hookSetKey s v true t0) = some (encodeKey v) := by
  have h300 : TTL_MS = 300000 := rfl
  have httl : TTL_MS ≠ 0 := by decide
  have hset : storeGet (hookSetKey s v true t0).store EKEY_STORAGE_KEY
      = some (RawEntry.valid (encodeKey v) (some (t0 + TTL_MS))) := by
    simp [hookSetKey, setItemWithTTL, httl, storeGet_storeSet_self]
  refine ⟨?_, ?_, rfl⟩
  · intro ht
    have hcond : (t0 + TTL_MS ≠ 0 ∧ t0 + TTL_MS < t) := ⟨by omega, ht⟩
    simp [hookHydrate, getItemWithTTL, hset, hcond, storeGet_storeRemove_self]
  · intro ht
    have hlt : ¬(t0 + TTL_MS < t) := by omega
    simp [hookHydrate, getItemWithTTL, hset, hlt]

/-- C2 (witness): setting the key at time 0, a hydration read at 300001 finds
nothing while the mirror still serves the encoded key. -/
theorem key_cache_ttl_through_cache_witness :
    (hookHydrate (hookSetKey initialKeyHook "1234" true 0) 300001).rawKey = none ∧
    readEncodedKey (hookSetKey initialKeyHook "1234" true 0) = some (encodeKey "1234") :=
  ⟨((key_cache_ttl_through_cache initialKeyHook "1234" 0 300001).1 (by decide)).1,
   (key_cache_ttl_through_cache initialKeyHook "1234" 0 300001).2.2⟩

/-- C8 (counterexample): `decryptNote` of the NotesScreen does not clear the
secret key cache on an authorization failure: its catch branch only logs and
toasts, so after a 401 the key cache is exactly what it was (mirror still
holding the encoded key), refuting the claim for the note-decryption path. -/
theorem decryptNote_401_leaves_key_cache :
    (decryptNote sampleKeyHook [] "n1" (ApiResult.err { status := some 401 })).1
      = sampleKeyHook ∧
    (decryptNote sampleKeyHook [] "n1" (ApiResult.err { status := some 401 })).1.rawKey
      = some (encodeKey "1234") := by
  constructor <;> rfl

/-- C8 (amended): for the vault password reveal (`handleReveal`) a remote
failure with status 401 clears the secret key cache (mirror and persisted
slot) in addition to surfacing the error, and a non-401 failure leaves the
cache in place; the note decryption path (`decryptNote`) leaves the cached
key in place on every failure, including authorization failures. -/
theorem decrypt_auth_failure_key_clearing (ks : KeyHookState) (rs : RevealState)
    (active : List (String × String)) (id noteId : String) (e : ApiError) (now : Nat)
    (hk : ks.rawKey.isSome = true) :
    (e.status = some 401 →
      (handleReveal ks rs id (ApiResult.err e) now).1 = hookClearKey ks ∧
      (handleReveal ks rs id (ApiResult.err e) now).1.rawKey = none ∧
      storeGet (handleReveal ks rs id (ApiResult.err e) now).1.store EKEY_STORAGE_KEY
        = none) ∧
    (e.status ≠ some 401 →
      (handleReveal ks rs id (ApiResult.err e) now).1 = ks) ∧
    (decryptNote ks active noteId (ApiResult.err e)).1 = ks := by
  rcases hr : ks.rawKey with _ | k
  · simp [hr] at hk
  · refine ⟨?_, ?_, ?_⟩
    · intro h401
      refine ⟨?_, ?_, ?_⟩ <;>
        simp [handleReveal, hr, h401, hookClearKey, removeItem, storeGet_storeRemove_self]
    · intro hne
      simp [handleReveal, hr, hne]
    · simp [decryptNote, hr]

/-- C8 (witness): the amended theorem applied at the concrete cached-key state
with a 401 and with a 500 failure. -/
theorem decrypt_auth_failure_key_clearing_witness :
    (handleReveal sampleKeyHook { revealed := [], timers := [] } "r1"
        (ApiResult.err { status := some 401 }) 0).1.rawKey = none ∧
    (handleReveal sampleKeyHook { revealed := [], timers := [] } "r1"
        (ApiResult.err { status := some 500 }) 0).1 = sampleKeyHook :=
  ⟨((decrypt_auth_failure_key_clearing sampleKeyHook { revealed := [], timers := [] }
        [] "r1" "n1" { status := some 401 } 0 rfl).1 rfl).2.1,
   (decrypt_auth_failure_key_clearing sampleKeyHook { revealed := [], timers := [] }
        [] "r1" "n1" { status := some 500 } 0 rfl).2.1 (by decide)⟩

theorem observable_revealSuccess_self (rs : RevealState) (id sec : String) (now : Nat) :
    observable (revealSuccess rs id sec now) id = some sec := by
  simp [observable, revealSuccess, alookup]

theorem observable_revealSuccess_other (rs : RevealState) (i id sec : String)
    (now : Nat) (h : i ≠ id) :
    observable (revealSuccess rs i sec now) id = observable rs id := by
  have hfil := alookup_filter_ne_other rs.revealed i id h
  simp only [decide_not] at hfil
  simp [observable, revealSuccess, alookup, h, hfil]

theorem observable_timerFire (rs : RevealState) (i id : String) (t : Nat) :
    observable (timerFire rs i t) id = observable rs id ∨
    observable (timerFire rs i t) id = none := by
  unfold timerFire
  by_cases hmem : (i, t) ∈ rs.timers
  · by_cases hi : i = id
    · subst hi
      right
      simpa [observable, hmem] using alookup_filter_ne_self rs.revealed i
    · left
      simpa [observable, hmem] using alookup_filter_ne_other rs.revealed i id hi
  · left
    simp [observable, hmem]

theorem filter_eq_key_of_filter_ne {α : Type} (l : List (String × α)) (id : String) :
    ((l.filter (fun p => p.1 ≠ id)).filter (fun p => p.1 = id)) = [] := by
  induction l with
  | nil => rfl
  | cons hd tl ih =>
    by_cases h : hd.1 = id <;> simp [List.filter, h, ih, decide_not]

theorem pendingCount_revealSuccess_self (rs : RevealState) (id sec : String)
    (now : Nat) :
    pendingCount (revealSuccess rs id sec now) id = 1 := by
  simp [pendingCount, revealSuccess, List.filter, filter_eq_key_of_filter_ne]

theorem timers_revealSuccess_self (rs : RevealState) (id sec : String) (now x : Nat) :
    (id, x) ∈ (revealSuccess rs id sec now).timers ↔ x = now + REVEAL_DELAY_MS := by
  simp [revealSuccess, List.mem_filter, Prod.mk.injEq]

theorem observable_ne_of_run (id A : String) (ops : List RevealOp) :
    ∀ rs : RevealState, observable rs id ≠ some A →
      (∀ n, RevealOp.revealOk id A n ∉ ops) →
      observable (runRevealOps rs ops) id ≠ some A := by
  induction ops with
  | nil =>
    intro rs hA _
    exact hA
  | cons op rest ih =>
    intro rs hA hops
    have hrest : ∀ n, RevealOp.revealOk id A n ∉ rest := by
      intro n hn
      exact hops n (List.mem_cons_of_mem _ hn)
    have hstep : observable (revealStep rs op) id ≠ some A := by
      cases op with
      | revealOk i sec tm =>
        by_cases hi : i = id
        · subst hi
          have hsec : sec ≠ A := by
            intro hs
            subst hs
            exact hops tm (List.mem_cons_self _ _)
          simp only [revealStep, observable_revealSuccess_self]
          intro hcontra
          exact hsec (Option.some.inj hcontra)
        · simpa only [revealStep, observable_revealSuccess_other rs i id sec tm hi]
            using hA
      | fire i t =>
        rcases observable_timerFire rs i id t with h | h
        · simpa only [revealStep, h] using hA
        · simp only [revealStep, h]
          exact fun hcontra => Option.noConfusion hcontra
      | cleanup =>
        simpa only [revealStep, revealCleanup, observable] using hA
    exact ih (revealStep rs op) hstep hrest

/-- C4: revealing id with A and then with B before the first timer fires
leaves exactly one pending timer for id — the replacement scheduled by the
second reveal, the first one cancelled rather than stacked — makes B the
observable value, and A can never become observable again along any
continuation (timer firings, cleanups and reveals of other values) that does
not reveal A for that id anew. -/
theorem reveal_replaces_timer_and_last_write_wins
    (rs : RevealState) (id A B : String) (t1 t2 : Nat) (hAB : A ≠ B) :
    pendingCount (revealSuccess (revealSuccess rs id A t1) id B t2) id = 1 ∧
    (∀ x, (id, x) ∈ (revealSuccess (revealSuccess rs id A t1) id B t2).timers ↔
      x = t2 + REVEAL_DELAY_MS) ∧
    observable (revealSuccess (revealSuccess rs id A t1) id B t2) id = some B ∧
    (∀ ops : List RevealOp, (∀ n, RevealOp.revealOk id A n ∉ ops) →
      observable (runRevealOps (revealSuccess (revealSuccess rs id A t1) id B t2) ops) id
        ≠ some A) := by
  refine ⟨pendingCount_revealSuccess_self _ _ _ _,
    fun x => timers_revealSuccess_self _ _ _ _ _,
    observable_revealSuccess_self _ _ _ _, ?_⟩
  intro ops hops
  apply observable_ne_of_run
  · rw [observable_revealSuccess_self]
    intro hcontra
    exact hAB (Option.some.inj hcontra).symm
  · exact hops

/-- C4 (witness): reveal "secretA" at 0 then "secretB" at 1000 for record
"r1"; one timer pending, "secretB" observable, and after the pending timer
fires at 6000 the record is hidden and "secretA" is not observable. -/
theorem reveal_replaces_timer_and_last_write_wins_witness :
    pendingCount (revealSuccess (revealSuccess { revealed := [], timers := [] }
      "r1" "secretA" 0) "r1" "secretB" 1000) "r1" = 1 ∧
    observable (revealSuccess (revealSuccess { revealed := [], timers := [] }
      "r1" "secretA" 0) "r1" "secretB" 1000) "r1" = some "secretB" ∧
    observable (runRevealOps (revealSuccess (revealSuccess { revealed := [], timers := [] }
      "r1" "secretA" 0) "r1" "secretB" 1000) [RevealOp.fire "r1" 6000]) "r1"
      ≠ some "secretA" := by
  have h := reveal_replaces_timer_and_last_write_wins { revealed := [], timers := [] }
    "r1" "secretA" "secretB" 0 1000 (by decide)
  exact ⟨h.1, h.2.2.1, h.2.2.2 [RevealOp.fire "r1" 6000]
    (by intro n hn; simp at hn)⟩

end AmantraVault
